import Mathlib

/-!
A shallow embedding of `src/detect_ethercat_interface.py`.

The script has three functions:

* `get_network_interfaces` — runs `ip link show` (and, when that exits
  nonzero, `ifconfig`), parses the stdout into a list of interface names,
  and falls back to a fixed list when a subprocess call raises.
* `detect_ethercat_interface` — for each candidate interface creates a
  `pysoem.Master()`, opens it, calls `config_init()` (which returns the
  slave count), and returns the first interface whose count is positive;
  all per-candidate exceptions are caught and the scan continues.
* `main` — returns exit status 0 when an interface was selected, 1 otherwise.

The external world is a parameter of the embedding:

* `Platform` holds the observable behaviour of the two subprocess calls
  (`none` = the call raises, e.g. `FileNotFoundError`; `some` = the
  captured return code / stdout).  `subprocess.run` is invoked with
  `check=False`, so a nonzero exit status is data, not an exception.
* `MasterBehavior` describes, per interface name, what the pysoem calls do
  during one attempt: the `Master()` constructor raising, `open` raising,
  `config_init` raising, or `config_init` returning a list of slaves
  (`slave_count` is its length, matching pysoem, whose `config_init`
  populates `master.slaves` with exactly the counted slaves).  The
  `closeRaises` flags say whether the defensive `master.close()` in the
  `except` handler itself raises; the normal-path `master.close()` is a
  void resource release and is modelled as non-raising.

The probe run is recorded as a `RunLog`: the returned interface, the list
of per-candidate attempt outcomes, and the trace of session events, from
which the resource-safety claims are stated.
-/

/-- Identity data the script reads from one discovered slave
(`slave.name`, `slave.man`, `slave.id`); the ordinal printed by the script
is the position of the slave in the list. -/
structure SlaveRecord where
  name : String
  man : Nat
  id : Nat
deriving DecidableEq

/-- Behaviour of the pysoem capability surface on one interface during an
attempt of the scan loop. -/
inductive MasterBehavior where
  /-- `pysoem.Master()` raises; `master` stays `None`. -/
  | ctorRaises : MasterBehavior
  /-- `master.open(interface)` raises; the flag says whether the defensive
  `master.close()` in the handler raises too. -/
  | openRaises (closeRaises : Bool) : MasterBehavior
  /-- `master.config_init()` raises after a successful open; the flag says
  whether the defensive `master.close()` raises too. -/
  | initRaises (closeRaises : Bool) : MasterBehavior
  /-- `config_init` succeeds and reports these slaves (`slave_count` is the
  length of the list). -/
  | slaves (records : List SlaveRecord) : MasterBehavior
deriving DecidableEq

/-- Outcome recorded for one candidate (the `ProbeAttempt` outcome of the spec). -/
inductive AttemptOutcome where
  | slavesFound (records : List SlaveRecord) : AttemptOutcome
  | noSlaves : AttemptOutcome
  | error : AttemptOutcome
deriving DecidableEq

/-- Observable calls on the master capability surface during a run. -/
inductive Event where
  /-- `master.open(interface)` succeeded: a session is now open. -/
  | sessionOpen (iface : String) : Event
  /-- `master.open(interface)` raised: no session was opened. -/
  | openFailed (iface : String) : Event
  /-- `master.config_init()` returned this slave count. -/
  | initDone (iface : String) (slaveCount : Nat) : Event
  /-- `master.config_init()` raised. -/
  | initFailed (iface : String) : Event
  /-- `master.close()` was called on the open session and returned. -/
  | sessionClose (iface : String) : Event
  /-- `master.close()` was called on the open session and raised; the
  error was suppressed by the bare `except: pass`. -/
  | sessionCloseRaised (iface : String) : Event
  /-- Defensive `master.close()` on a master that never opened a session. -/
  | closeNoSession (iface : String) : Event
  /-- Defensive `master.close()` on an unopened master that raised;
  suppressed. -/
  | closeNoSessionRaised (iface : String) : Event
deriving DecidableEq

/-- One iteration of the `for interface in interfaces` loop body
(lines 70–102 of the script): the recorded outcome and the trace of
capability-surface events of this attempt. -/
def runAttempt (env : String → MasterBehavior) (iface : String) :
    AttemptOutcome × List Event :=
  match env iface with
  | .ctorRaises => (.error, [])
  | .openRaises closeRaises =>
      (.error, [.openFailed iface,
        if closeRaises then .closeNoSessionRaised iface else .closeNoSession iface])
  | .initRaises closeRaises =>
      (.error, [.sessionOpen iface, .initFailed iface,
        if closeRaises then .sessionCloseRaised iface else .sessionClose iface])
  | .slaves records =>
      (if 0 < records.length then .slavesFound records else .noSlaves,
        [.sessionOpen iface, .initDone iface records.length, .sessionClose iface])

/-- Everything one run of `detect_ethercat_interface` did: its return value,
the per-candidate outcomes in scan order, and the session-event trace. -/
structure RunLog where
  result : Option String
  attempts : List (String × AttemptOutcome)
  events : List Event
deriving DecidableEq

/-- The scan loop of `detect_ethercat_interface` (lines 69–105): first
candidate whose attempt reports a positive slave count is returned at once;
any other outcome moves on to the next candidate. -/
def scanLoop (env : String → MasterBehavior) : List String → RunLog
  | [] => ⟨none, [], []⟩
  | iface :: rest =>
    let a := runAttempt env iface
    match a.1 with
    | .slavesFound _ => ⟨some iface, [(iface, a.1)], a.2⟩
    | _ =>
      let r := scanLoop env rest
      ⟨r.result, (iface, a.1) :: r.attempts, a.2 ++ r.events⟩

/-- `detect_ethercat_interface` restricted to a given candidate list
(lines 64–105): the `if not interfaces` early return, then the scan loop. -/
def probeRun (env : String → MasterBehavior) (interfaces : List String) : RunLog :=
  if interfaces.isEmpty then ⟨none, [], []⟩
  else scanLoop env interfaces

/-- `env iface` makes the attempt report one or more slaves. -/
def isMatch (env : String → MasterBehavior) (iface : String) : Bool :=
  match env iface with
  | .slaves records => 0 < records.length
  | _ => false

/-- The behaviour raises somewhere inside the `try` block. -/
def isError (b : MasterBehavior) : Bool :=
  match b with
  | .slaves _ => false
  | _ => true

/-- The outcome that short-circuits the scan. -/
def isFound (o : AttemptOutcome) : Bool :=
  match o with
  | .slavesFound _ => true
  | _ => false

/-- Interfaces on which an attempt was actually performed, in order. -/
def attemptedInterfaces (env : String → MasterBehavior)
    (interfaces : List String) : List String :=
  (probeRun env interfaces).attempts.map Prod.fst

example : runAttempt (fun _ => .slaves [⟨"Motor1", 2001, 10000⟩]) "eth0" =
    (.slavesFound [⟨"Motor1", 2001, 10000⟩],
      [.sessionOpen "eth0", .initDone "eth0" 1, .sessionClose "eth0"]) := by decide

example : (probeRun (fun s => if s = "eth1" then .slaves [⟨"Motor1", 2001, 10000⟩]
      else .openRaises false) ["eth0", "eth1", "eth2"]).result = some "eth1" := by decide

/-!
The interface source, `get_network_interfaces` (lines 12–52).  The Python
string operations are embedded at the character-list level, where they
compute: `str.split(sep)`, `str.strip()`, `str.lower()`, `str.startswith`,
and the substring test `pat in s`.
-/

/-- Python `str.split(sep)` for a one-character separator: every occurrence
splits, `""` yields `[""]`. -/
def splitOnChar (sep : Char) : List Char → List (List Char)
  | [] => [[]]
  | c :: rest =>
    let r := splitOnChar sep rest
    if c == sep then [] :: r
    else
      match r with
      | [] => [[c]]
      | h :: t => (c :: h) :: t

/-- Python `pat in s` on character lists: `pat` occurs as a contiguous
substring. -/
def charsContains (pat : List Char) : List Char → Bool
  | [] => pat.isEmpty
  | c :: rest => pat.isPrefixOf (c :: rest) || charsContains pat rest

/-- Python `str.strip()`: drop leading and trailing whitespace. -/
def trimChars (l : List Char) : List Char :=
  ((l.dropWhile Char.isWhitespace).reverse.dropWhile Char.isWhitespace).reverse

/-- Observable behaviour of the two subprocess calls of
`get_network_interfaces`.  `none` means the call raises (for example
`FileNotFoundError` when the binary does not exist); `some` is the
captured result.  Both calls use `check=False`, so a nonzero exit status
is returned, not raised; the script never reads the return code of
`ifconfig`, so only its stdout is recorded. -/
structure Platform where
  /-- `subprocess.run(['ip', 'link', 'show'], ...)`: return code and stdout. -/
  ipLink : Option (Int × String)
  /-- `subprocess.run(['ifconfig'], ...)`: stdout. -/
  ifconfig : Option String

/-- One line of `ip link show` output (lines 26–32): it must contain `':'`
and the word `state` case-insensitively; the name is `line.split(':')[1]`
stripped, kept unless it starts with `lo` or `veth`. -/
def ipLinkInterface (line : List Char) : Option String :=
  if line.contains ':' && charsContains "state".data (line.map Char.toLower) then
    if h : 2 ≤ (splitOnChar ':' line).length then
      if !("lo".data.isPrefixOf (trimChars ((splitOnChar ':' line).get ⟨1, by omega⟩)))
          && !("veth".data.isPrefixOf (trimChars ((splitOnChar ':' line).get ⟨1, by omega⟩))) then
        some (String.mk (trimChars ((splitOnChar ':' line).get ⟨1, by omega⟩)))
      else none
    else none
  else none

/-- One line of `ifconfig` output (lines 41–45): it must contain `':'` and
`flags=`; the name is `line.split(':')[0]`, kept when it starts with `en`
or `eth`. -/
def ifconfigInterface (line : List Char) : Option String :=
  if line.contains ':' && charsContains "flags=".data line then
    if ("en".data.isPrefixOf ((splitOnChar ':' line).headD []))
        || ("eth".data.isPrefixOf ((splitOnChar ':' line).headD [])) then
      some (String.mk ((splitOnChar ':' line).headD []))
    else none
  else none

/-- The static fallback list assigned in the `except` handler (line 50). -/
def fallbackInterfaces : List String := ["eth0", "eth1", "enp0s3", "en0", "en9"]

/-- `get_network_interfaces` (lines 12–52).  The fallback is reached exactly
when one of the subprocess calls raises; a completed `ip link show` with
return code 0 is parsed line by line, otherwise `ifconfig` output is. -/
def get_network_interfaces (p : Platform) : List String :=
  match p.ipLink with
  | none => fallbackInterfaces
  | some (rc, out) =>
    if rc = 0 then
      (splitOnChar '\n' out.data).filterMap ipLinkInterface
    else
      match p.ifconfig with
      | none => fallbackInterfaces
      | some out2 => (splitOnChar '\n' out2.data).filterMap ifconfigInterface

/-- `detect_ethercat_interface` (lines 55–105): the probe applied to the
enumerated candidate list; returns the selected interface name or `None`. -/
def detect_ethercat_interface (p : Platform) (env : String → MasterBehavior) :
    Option String :=
  (probeRun env (get_network_interfaces p)).result

namespace Script

/-- `main` (lines 108–127): result of the script process, used as its exit
status by `sys.exit(main())`.  The branch `if interface:` is a Python
truthiness test: it takes the success branch only when the detected value
is neither `None` nor the empty string, so a selected empty-string
interface name falls through to the failure branch and exit status 1. -/
def main (p : Platform) (env : String → MasterBehavior) : Nat :=
  match detect_ethercat_interface p env with
  | some iface => if iface = "" then 1 else 0
  | none => 1

end Script

example : splitOnChar ':' "2: eth0: x".data = ["2".data, " eth0".data, " x".data] := by decide

example : get_network_interfaces ⟨some (0, "2: eth0: mtu state UP"), none⟩ = ["eth0"] := by
  decide

example : get_network_interfaces ⟨some (1, "x"), some "en0: flags=8863 mtu 1500"⟩ =
    ["en0"] := by decide

example : get_network_interfaces ⟨none, none⟩ = fallbackInterfaces := by decide

/-! Basic facts about the scan loop. -/

lemma probeRun_eq_scanLoop (env : String → MasterBehavior) (l : List String) :
    probeRun env l = scanLoop env l := by
  cases l <;> rfl

lemma scanLoop_cons (env : String → MasterBehavior) (c : String) (rest : List String) :
    scanLoop env (c :: rest) =
      if isFound (runAttempt env c).1 then
        ⟨some c, [(c, (runAttempt env c).1)], (runAttempt env c).2⟩
      else
        ⟨(scanLoop env rest).result, (c, (runAttempt env c).1) :: (scanLoop env rest).attempts,
          (runAttempt env c).2 ++ (scanLoop env rest).events⟩ := by
  cases ho : (runAttempt env c).1 <;> simp [scanLoop, ho, isFound]

lemma isFound_runAttempt (env : String → MasterBehavior) (c : String) :
    isFound (runAttempt env c).1 = isMatch env c := by
  cases h : env c with
  | ctorRaises => simp [runAttempt, isMatch, isFound, h]
  | openRaises b => simp [runAttempt, isMatch, isFound, h]
  | initRaises b => simp [runAttempt, isMatch, isFound, h]
  | slaves records =>
    by_cases hl : 0 < records.length <;> simp [runAttempt, isMatch, isFound, h, hl]

lemma runAttempt_error (env : String → MasterBehavior) (c : String)
    (h : isError (env c) = true) : (runAttempt env c).1 = .error := by
  cases he : env c with
  | ctorRaises => simp [runAttempt, he]
  | openRaises b => simp [runAttempt, he]
  | initRaises b => simp [runAttempt, he]
  | slaves records => simp [isError, he] at h

lemma runAttempt_found (env : String → MasterBehavior) (c : String)
    (recs : List SlaveRecord) (h : (runAttempt env c).1 = .slavesFound recs) :
    env c = .slaves recs ∧ 0 < recs.length := by
  cases he : env c with
  | ctorRaises => simp [runAttempt, he] at h
  | openRaises b => simp [runAttempt, he] at h
  | initRaises b => simp [runAttempt, he] at h
  | slaves records =>
    by_cases hl : 0 < records.length <;> simp [runAttempt, he, hl] at h
    exact ⟨by rw [h], h ▸ hl⟩

/-! Session events and the pairing invariant used for resource safety. -/

/-- The event opens a session. -/
def isSessionOpenEv : Event → Bool
  | .sessionOpen _ => true
  | _ => false

/-- The event is a `close` call on the open session (whether or not the
call itself raised, the call was made and releases the session). -/
def isSessionCloseEv : Event → Bool
  | .sessionClose _ => true
  | .sessionCloseRaised _ => true
  | _ => false

/-- The subtrace of events that open or close a session. -/
def sessionEvents (t : List Event) : List Event :=
  t.filter fun e => isSessionOpenEv e || isSessionCloseEv e

/-- The session subtrace consists of adjacent open/close pairs on the same
interface: each opened session is closed exactly once, immediately, and in
particular no two sessions are ever open at the same time. -/
inductive SessionsPaired : List Event → Prop
  | nil : SessionsPaired []
  | closed (iface : String) (rest : List Event) :
      SessionsPaired rest →
      SessionsPaired (.sessionOpen iface :: .sessionClose iface :: rest)
  | closedRaised (iface : String) (rest : List Event) :
      SessionsPaired rest →
      SessionsPaired (.sessionOpen iface :: .sessionCloseRaised iface :: rest)

lemma sessionEvents_append (xs ys : List Event) :
    sessionEvents (xs ++ ys) = sessionEvents xs ++ sessionEvents ys := by
  simp [sessionEvents]

lemma SessionsPaired.append {xs ys : List Event}
    (hx : SessionsPaired xs) (hy : SessionsPaired ys) : SessionsPaired (xs ++ ys) := by
  induction hx with
  | nil => simpa
  | closed i rest _ ih =>
    rw [List.cons_append, List.cons_append]
    exact SessionsPaired.closed i _ ih
  | closedRaised i rest _ ih =>
    rw [List.cons_append, List.cons_append]
    exact SessionsPaired.closedRaised i _ ih

lemma runAttempt_sessionEvents (env : String → MasterBehavior) (c : String) :
    sessionEvents (runAttempt env c).2 = [] ∨
    sessionEvents (runAttempt env c).2 = [.sessionOpen c, .sessionClose c] ∨
    sessionEvents (runAttempt env c).2 = [.sessionOpen c, .sessionCloseRaised c] := by
  cases he : env c
  · simp [runAttempt, he, sessionEvents]
  · rename_i b
    cases b <;>
      simp [runAttempt, he, sessionEvents, isSessionOpenEv, isSessionCloseEv]
  · rename_i b
    cases b <;>
      simp [runAttempt, he, sessionEvents, isSessionOpenEv, isSessionCloseEv]
  · simp [runAttempt, he, sessionEvents, isSessionOpenEv, isSessionCloseEv]

lemma runAttempt_paired (env : String → MasterBehavior) (c : String) :
    SessionsPaired (sessionEvents (runAttempt env c).2) := by
  rcases runAttempt_sessionEvents env c with h | h | h <;> rw [h]
  · exact .nil
  · exact .closed c [] .nil
  · exact .closedRaised c [] .nil

lemma runAttempt_counts (env : String → MasterBehavior) (c : String) :
    (runAttempt env c).2.countP isSessionOpenEv =
      (runAttempt env c).2.countP isSessionCloseEv := by
  cases he : env c
  · simp [runAttempt, he]
  · rename_i b
    cases b <;>
      simp [runAttempt, he, List.countP_cons, isSessionOpenEv, isSessionCloseEv]
  · rename_i b
    cases b <;>
      simp [runAttempt, he, List.countP_cons, isSessionOpenEv, isSessionCloseEv]
  · simp [runAttempt, he, List.countP_cons, isSessionOpenEv, isSessionCloseEv]

lemma scanLoop_sessions (env : String → MasterBehavior) (l : List String) :
    SessionsPaired (sessionEvents (scanLoop env l).events) ∧
      (scanLoop env l).events.countP isSessionOpenEv =
        (scanLoop env l).events.countP isSessionCloseEv := by
  induction l with
  | nil => exact ⟨.nil, rfl⟩
  | cons c rest ih =>
    rw [scanLoop_cons]
    cases hf : isFound (runAttempt env c).1
    · simp only [hf, Bool.false_eq_true, if_false]
      refine ⟨?_, ?_⟩
      · show SessionsPaired (sessionEvents ((runAttempt env c).2 ++ (scanLoop env rest).events))
        rw [sessionEvents_append]
        exact (runAttempt_paired env c).append ih.1
      · show ((runAttempt env c).2 ++ (scanLoop env rest).events).countP isSessionOpenEv =
          ((runAttempt env c).2 ++ (scanLoop env rest).events).countP isSessionCloseEv
        rw [List.countP_append, List.countP_append, runAttempt_counts env c, ih.2]
    · simp only [hf, if_true]
      exact ⟨runAttempt_paired env c, runAttempt_counts env c⟩

lemma scanLoop_first_match (env : String → MasterBehavior) :
    ∀ (l : List String) (i : Nat) (c : String), l[i]? = some c → isMatch env c = true →
      (∀ j, j < i → ∀ d, l[j]? = some d → isMatch env d = false) →
      (scanLoop env l).result = some c ∧
        (scanLoop env l).attempts.map Prod.fst = l.take (i + 1)
  | [], i, c => by
    intro hc _ _
    simp at hc
  | d :: rest, 0, c => by
    intro hc hm _
    simp only [List.getElem?_cons_zero, Option.some.injEq] at hc
    subst hc
    have hff : isFound (runAttempt env d).1 = true := by
      rw [isFound_runAttempt]; exact hm
    rw [scanLoop_cons]
    simp [hff]
  | d :: rest, i + 1, c => by
    intro hc hm hb
    have hd0 : isMatch env d = false := hb 0 (Nat.succ_pos i) d (by simp)
    have hff : isFound (runAttempt env d).1 = false := by
      rw [isFound_runAttempt]; exact hd0
    rw [scanLoop_cons]
    simp only [hff, Bool.false_eq_true, if_false]
    simp only [List.getElem?_cons_succ] at hc
    obtain ⟨h1, h2⟩ := scanLoop_first_match env rest i c hc hm
      (fun j hj d2 hd2 => hb (j + 1) (by omega) d2 (by simpa using hd2))
    refine ⟨h1, ?_⟩
    show ((d, (runAttempt env d).1) :: (scanLoop env rest).attempts).map Prod.fst =
      (d :: rest).take (i + 1 + 1)
    simp [h2]

lemma scanLoop_attempts_bound (env : String → MasterBehavior) :
    ∀ l : List String, (scanLoop env l).attempts.length ≤ l.length ∧
      ((scanLoop env l).attempts.length = l.length ↔
        ∀ c ∈ l.dropLast, isMatch env c = false)
  | [] => by simp [scanLoop]
  | c :: rest => by
    obtain ⟨ih1, ih2⟩ := scanLoop_attempts_bound env rest
    rw [scanLoop_cons]
    cases hf : isFound (runAttempt env c).1
    · have hm : isMatch env c = false := by rw [← isFound_runAttempt]; exact hf
      simp only [Bool.false_eq_true, if_false]
      show (scanLoop env rest).attempts.length + 1 ≤ rest.length + 1 ∧ _
      refine ⟨by omega, ?_⟩
      cases rest with
      | nil => simp [scanLoop]
      | cons r rs =>
        show (scanLoop env (r :: rs)).attempts.length + 1 = (r :: rs).length + 1 ↔
          ∀ x ∈ (c :: r :: rs).dropLast, isMatch env x = false
        rw [List.dropLast_cons₂]
        simp only [List.mem_cons, forall_eq_or_imp]
        constructor
        · intro h
          exact ⟨hm, ih2.mp (by omega)⟩
        · intro h
          have := ih2.mpr h.2
          omega
    · have hm : isMatch env c = true := by rw [← isFound_runAttempt]; exact hf
      simp only [if_true]
      show (1 : Nat) ≤ rest.length + 1 ∧ ((1 : Nat) = rest.length + 1 ↔ _)
      refine ⟨by omega, ?_⟩
      cases rest with
      | nil => simp
      | cons r rs =>
        rw [List.dropLast_cons₂]
        simp only [List.mem_cons, forall_eq_or_imp, List.length_cons]
        constructor
        · intro h
          omega
        · intro h
          rw [h.1] at hm
          cases hm
  termination_by l => l.length

lemma getLast?_cons_of_some {α : Type} {A : List α} {x y : α}
    (h : A.getLast? = some y) : (x :: A).getLast? = some y := by
  cases A with
  | nil => simp at h
  | cons a as => simpa [List.getLast?_cons_cons] using h

lemma scanLoop_result_some (env : String → MasterBehavior) :
    ∀ (l : List String) (iface : String), (scanLoop env l).result = some iface →
      isMatch env iface = true ∧
        ∃ recs, recs ≠ [] ∧
          (scanLoop env l).attempts.getLast? = some (iface, .slavesFound recs)
  | [], iface => by
    intro h
    simp [scanLoop] at h
  | c :: rest, iface => by
    intro h
    rw [scanLoop_cons] at h ⊢
    cases hf : isFound (runAttempt env c).1
    · simp only [hf, Bool.false_eq_true, if_false] at h ⊢
      obtain ⟨hm, recs, hne, hlast⟩ := scanLoop_result_some env rest iface h
      exact ⟨hm, recs, hne, getLast?_cons_of_some hlast⟩
    · simp only [hf, if_true] at h ⊢
      have hc : c = iface := by simpa using h
      subst hc
      have hmm : isMatch env c = true := by rw [← isFound_runAttempt]; exact hf
      obtain ⟨recs, hrecs⟩ : ∃ recs, (runAttempt env c).1 = .slavesFound recs := by
        cases ho : (runAttempt env c).1 <;> simp [isFound, ho] at hf ⊢
      have hlen := (runAttempt_found env c recs hrecs).2
      refine ⟨hmm, recs, ?_, ?_⟩
      · intro hnil
        rw [hnil] at hlen
        simp at hlen
      · simp [hrecs]
  termination_by l => l.length

lemma scanLoop_result_none (env : String → MasterBehavior) :
    ∀ l : List String, (scanLoop env l).result = none →
      ∀ p ∈ (scanLoop env l).attempts, isFound p.2 = false
  | [] => by
    intro _ p hp
    simp [scanLoop] at hp
  | c :: rest => by
    intro h p hp
    rw [scanLoop_cons] at h hp
    cases hf : isFound (runAttempt env c).1
    · simp only [hf, Bool.false_eq_true, if_false] at h hp
      rcases List.mem_cons.mp hp with hp1 | hp2
      · rw [hp1]
        exact hf
      · exact scanLoop_result_none env rest h p hp2
    · simp only [hf, if_true] at h
      cases h
  termination_by l => l.length

/-- C1: in every probe run, every session that was opened is closed exactly
once — the session subtrace of the event trace is a sequence of adjacent
open/close pairs on the same interface (so on every exit path the session
is released before the next candidate, and no two sessions are ever open at
the same time), and the number of open events equals the number of close
calls on open sessions. -/
theorem sessions_closed_once_and_exclusive (env : String → MasterBehavior)
    (interfaces : List String) :
    SessionsPaired (sessionEvents (probeRun env interfaces).events) ∧
      (probeRun env interfaces).events.countP isSessionOpenEv =
        (probeRun env interfaces).events.countP isSessionCloseEv := by
  rw [probeRun_eq_scanLoop]
  exact scanLoop_sessions env interfaces

/-- C2: if the candidate at position `i` is the first one to report at
least one slave, the probe selects it and attempts exactly the candidates
at positions `0..i`, in list order (no attempt at any position greater
than `i`). -/
theorem first_match_selected (env : String → MasterBehavior) (l : List String)
    (i : Nat) (c : String) (hc : l[i]? = some c) (hm : isMatch env c = true)
    (hbefore : ∀ j, j < i → ∀ d, l[j]? = some d → isMatch env d = false) :
    (probeRun env l).result = some c ∧ attemptedInterfaces env l = l.take (i + 1) := by
  unfold attemptedInterfaces
  rw [probeRun_eq_scanLoop]
  exact scanLoop_first_match env l i c hc hm hbefore

/-- Environment for the C2 witness: only `eth1` has a slave. -/
def envMatchSecond : String → MasterBehavior := fun s =>
  if s = "eth1" then .slaves [⟨"Motor1", 2001, 10000⟩] else .slaves []

theorem first_match_selected_witness :
    (probeRun envMatchSecond ["eth0", "eth1", "eth2"]).result = some "eth1" ∧
      attemptedInterfaces envMatchSecond ["eth0", "eth1", "eth2"] =
        (["eth0", "eth1", "eth2"] : List String).take 2 :=
  first_match_selected envMatchSecond ["eth0", "eth1", "eth2"] 1 "eth1" (by decide)
    (by decide)
    (by
      intro j hj d hd
      have hj0 : j = 0 := by omega
      subst hj0
      have hd0 : d = "eth0" := by simpa using hd.symm
      subst hd0
      decide)

/-- Environment for the C3 counterexample and C4 witness base: every
interface reports one slave. -/
def envAlwaysMatch : String → MasterBehavior := fun _ =>
  .slaves [⟨"Motor1", 2001, 10000⟩]

/-- C3 counterexample: with a single candidate that does report a slave,
the number of attempts (1) equals the length of the list (1), yet a
candidate yields a match — so "attempts = length iff no candidate yields a
match" is false as stated. -/
theorem attempts_eq_length_iff_no_match_cex :
    ¬ (((probeRun envAlwaysMatch ["eth0"]).attempts.length =
          (["eth0"] : List String).length) ↔
        ∀ c ∈ (["eth0"] : List String), isMatch envAlwaysMatch c = false) := by
  decide

/-- C3 (amended): the number of attempts is at most the length of the
candidate list, and it equals the length exactly when no candidate before
the last position yields a match (so either no candidate matches, or the
first match is the last candidate). -/
theorem attempts_bound_and_exhaustion (env : String → MasterBehavior)
    (l : List String) :
    (probeRun env l).attempts.length ≤ l.length ∧
      ((probeRun env l).attempts.length = l.length ↔
        ∀ c ∈ l.dropLast, isMatch env c = false) := by
  rw [probeRun_eq_scanLoop]
  exact scanLoop_attempts_bound env l

/-- C4: a `Selected` result (the probe returning an interface) carries the
non-empty slave record list of its final, matching attempt — it is produced
only when that attempt reported at least one slave — and a `NotFound`
result (`None`) implies that no attempt in the run reported one or more
slaves. -/
theorem selected_nonempty_and_notfound_nomatch (env : String → MasterBehavior)
    (l : List String) :
    (∀ iface, (probeRun env l).result = some iface →
      ∃ recs, recs ≠ [] ∧
        (probeRun env l).attempts.getLast? = some (iface, .slavesFound recs)) ∧
    ((probeRun env l).result = none →
      ∀ p ∈ (probeRun env l).attempts, ∀ recs,
        p.2 ≠ AttemptOutcome.slavesFound recs) := by
  rw [probeRun_eq_scanLoop]
  constructor
  · intro iface h
    exact (scanLoop_result_some env l iface h).2
  · intro h p hp recs hcontra
    have := scanLoop_result_none env l h p hp
    rw [hcontra] at this
    simp [isFound] at this

theorem selected_nonempty_and_notfound_nomatch_witness :
    ∃ recs, recs ≠ [] ∧
      (probeRun envAlwaysMatch ["eth0"]).attempts.getLast? =
        some ("eth0", .slavesFound recs) :=
  (selected_nonempty_and_notfound_nomatch envAlwaysMatch ["eth0"]).1 "eth0" (by decide)

/-- C5: a per-candidate failure (constructor, open, or initialization
raising) is recorded as an `error` attempt for that candidate, and the scan
continues with the remaining candidates exactly as it would have run on
them alone — no error from one candidate terminates the run early. -/
theorem error_recorded_and_scan_continues (env : String → MasterBehavior)
    (c : String) (rest : List String) (h : isError (env c) = true) :
    (probeRun env (c :: rest)).attempts =
        (c, AttemptOutcome.error) :: (probeRun env rest).attempts ∧
      (probeRun env (c :: rest)).result = (probeRun env rest).result := by
  have h1 := runAttempt_error env c h
  have hf : isFound (runAttempt env c).1 = false := by rw [h1]; rfl
  rw [probeRun_eq_scanLoop, probeRun_eq_scanLoop, scanLoop_cons]
  simp [hf, h1, isFound]

/-- Environment for the C5 witness: `eth0` fails at open, `eth1` has a
slave. -/
def envOpenFails : String → MasterBehavior := fun s =>
  if s = "eth0" then .openRaises false else .slaves [⟨"Motor1", 2001, 10000⟩]

theorem error_recorded_and_scan_continues_witness :
    (probeRun envOpenFails ["eth0", "eth1"]).attempts =
        ("eth0", AttemptOutcome.error) :: (probeRun envOpenFails ["eth1"]).attempts ∧
      (probeRun envOpenFails ["eth0", "eth1"]).result =
        (probeRun envOpenFails ["eth1"]).result :=
  error_recorded_and_scan_continues envOpenFails "eth0" ["eth1"] (by decide)

/-- C9: on an empty candidate list the probe returns `NotFound` (`None`)
with no attempts and an empty event trace — in particular no open,
initialization, or close call was ever made on the master capability
surface. -/
theorem empty_candidates_no_session (env : String → MasterBehavior) :
    probeRun env [] = ⟨none, [], []⟩ :=
  rfl

/-- Strip the "defensive close also raises" flags from a behaviour, leaving
everything else unchanged. -/
def scrubCloseFailures : MasterBehavior → MasterBehavior
  | .openRaises _ => .openRaises false
  | .initRaises _ => .initRaises false
  | b => b

lemma runAttempt_scrub_fst (env : String → MasterBehavior) (c : String) :
    (runAttempt (fun s => scrubCloseFailures (env s)) c).1 = (runAttempt env c).1 := by
  cases he : env c with
  | ctorRaises => simp [runAttempt, scrubCloseFailures, he]
  | openRaises b => simp [runAttempt, scrubCloseFailures, he]
  | initRaises b => simp [runAttempt, scrubCloseFailures, he]
  | slaves records => simp [runAttempt, scrubCloseFailures, he]

lemma scanLoop_scrub (env : String → MasterBehavior) :
    ∀ l : List String,
      (scanLoop (fun s => scrubCloseFailures (env s)) l).result =
          (scanLoop env l).result ∧
        (scanLoop (fun s => scrubCloseFailures (env s)) l).attempts =
          (scanLoop env l).attempts
  | [] => ⟨rfl, rfl⟩
  | c :: rest => by
    obtain ⟨ih1, ih2⟩ := scanLoop_scrub env rest
    rw [scanLoop_cons, scanLoop_cons, runAttempt_scrub_fst]
    cases hf : isFound (runAttempt env c).1
    · simp only [hf, Bool.false_eq_true, if_false]
      exact ⟨ih1, by rw [ih2]⟩
    · simp [hf]
  termination_by l => l.length

/-- C10: the defensive close in the `except` handler is attempted only when
the `Master()` object was constructed — when construction itself raises,
the attempt makes no capability-surface call at all — and an error raised
by the defensive close is suppressed: whether or not those closes raise
has no effect on the attempts or on the final result of the run. -/
theorem defensive_close_guarded_and_suppressed (env : String → MasterBehavior)
    (l : List String) (c : String) :
    (env c = MasterBehavior.ctorRaises → (runAttempt env c).2 = []) ∧
      (probeRun (fun s => scrubCloseFailures (env s)) l).result =
        (probeRun env l).result ∧
      (probeRun (fun s => scrubCloseFailures (env s)) l).attempts =
        (probeRun env l).attempts := by
  rw [probeRun_eq_scanLoop, probeRun_eq_scanLoop]
  refine ⟨fun h => by simp [runAttempt, h], ?_, ?_⟩
  · exact (scanLoop_scrub env l).1
  · exact (scanLoop_scrub env l).2

/-- Environment for the C10 witness: `Master()` raises on `eth0`. -/
def envCtorFails : String → MasterBehavior := fun s =>
  if s = "eth0" then .ctorRaises else .slaves []

theorem defensive_close_guarded_and_suppressed_witness :
    (runAttempt envCtorFails "eth0").2 = [] :=
  (defensive_close_guarded_and_suppressed envCtorFails ["eth0"] "eth0").1 (by decide)

/-- Platform for the C6 counterexample: an `ip link show` stdout line with
an empty second field, so the parser appends the stripped empty string and
the candidate list is `[""]`. -/
def platformEmptyName : Platform := ⟨some (0, "x:: state UP"), none⟩

/-- Environment for the C6 counterexample: every interface, the
empty-string one included, reports one slave. -/
def envEmptyMatches : String → MasterBehavior := fun _ =>
  .slaves [⟨"Motor1", 2001, 10000⟩]

/-- C6 counterexample: the probe selects the empty-string interface — a
`Selected` result whose attempt reported one slave — yet the script
returns exit status 1, because `if interface:` is a Python truthiness
test and the empty string is falsy.  So the claimed correspondence
(status 1 exactly in the `NotFound` cases) is false as stated. -/
theorem exit_status_truthiness_cex :
    detect_ethercat_interface platformEmptyName envEmptyMatches = some "" ∧
      isMatch envEmptyMatches "" = true ∧
      ¬ ((Script.main platformEmptyName envEmptyMatches = 1) ↔
          (detect_ethercat_interface platformEmptyName envEmptyMatches = none)) := by
  decide

/-- C6 (amended): the process exit status is 0 exactly when the probe
selected an interface with a non-empty name whose attempt reported at
least one slave, and 1 in every other case — `NotFound` (including the
empty candidate list) and the degenerate selection of an empty-string
interface name, which the truthiness test of the script treats as a
failure. -/
theorem exit_status_values (p : Platform) (env : String → MasterBehavior) :
    (Script.main p env = 0 ↔ ∃ iface, iface ≠ "" ∧
      detect_ethercat_interface p env = some iface ∧ isMatch env iface = true) ∧
    (Script.main p env = 1 ↔ (detect_ethercat_interface p env = none ∨
      detect_ethercat_interface p env = some "")) := by
  cases hd : detect_ethercat_interface p env with
  | none => simp [Script.main, hd]
  | some c =>
    have hd2 : (scanLoop env (get_network_interfaces p)).result = some c := by
      have h2 := hd
      unfold detect_ethercat_interface at h2
      rwa [probeRun_eq_scanLoop] at h2
    have hm : isMatch env c = true := (scanLoop_result_some env _ c hd2).1
    by_cases hc : c = ""
    · subst hc
      simp only [Script.main, hd]
      simp
      exact fun x hx he => absurd he.symm hx
    · simp [Script.main, hd, hc, hm]
      exact ⟨c, hc, rfl, hm⟩

/-- Exception raised by a subprocess call inside the `try` block of
`get_network_interfaces`: either `ip link show` raises, or it completes
with nonzero status and `ifconfig` raises. -/
def enumerationRaised (p : Platform) : Prop :=
  p.ipLink = none ∨ ∃ rc out, p.ipLink = some (rc, out) ∧ rc ≠ 0 ∧ p.ifconfig = none

/-- C7: whenever the platform enumeration is unavailable or fails (a
subprocess call raising), `get_network_interfaces` returns the fixed
fallback list `eth0, eth1, enp0s3, en0, en9`; since that list is non-empty,
an empty candidate list can only come from successfully captured platform
output that yields no eligible interface name — never from an enumeration
failure. -/
theorem fallback_on_enumeration_failure (p : Platform) :
    (enumerationRaised p → get_network_interfaces p = fallbackInterfaces) ∧
      (get_network_interfaces p = [] → ¬ enumerationRaised p) := by
  have hfb : enumerationRaised p → get_network_interfaces p = fallbackInterfaces := by
    rintro (h | ⟨rc, out, h1, h2, h3⟩)
    · simp [get_network_interfaces, h]
    · simp [get_network_interfaces, h1, h2, h3]
  refine ⟨hfb, fun he hr => ?_⟩
  rw [hfb hr] at he
  simp [fallbackInterfaces] at he

/-- Platform for the C7 witness: `ip` does not exist, and neither does
`ifconfig`. -/
def platformRaisesBoth : Platform := ⟨none, none⟩

theorem fallback_on_enumeration_failure_witness :
    get_network_interfaces platformRaisesBoth = fallbackInterfaces :=
  (fallback_on_enumeration_failure platformRaisesBoth).1 (Or.inl rfl)

/-- The name-pattern heuristic of the script: loopback (`lo*`) and
virtual (`veth*`) interface names. -/
def isExcludedName (s : String) : Bool :=
  "lo".data.isPrefixOf s.data || "veth".data.isPrefixOf s.data

lemma not_excluded_of_en_or_eth (l : List Char)
    (h : ("en".data.isPrefixOf l || "eth".data.isPrefixOf l) = true) :
    ("lo".data.isPrefixOf l || "veth".data.isPrefixOf l) = false := by
  have hen : "en".data = ['e', 'n'] := by decide
  have heth : "eth".data = ['e', 't', 'h'] := by decide
  have hlo : "lo".data = ['l', 'o'] := by decide
  have hveth : "veth".data = ['v', 'e', 't', 'h'] := by decide
  rw [hen, heth] at h
  rw [hlo, hveth]
  cases l with
  | nil => simp [List.isPrefixOf] at h
  | cons a t =>
    have ha : a = 'e' := by
      rw [Bool.or_eq_true] at h
      rcases h with h1 | h1 <;>
        · simp [List.isPrefixOf] at h1
          exact h1.1.symm
    subst ha
    simp [List.isPrefixOf, (show ('l' == 'e') = false by decide),
      (show ('v' == 'e') = false by decide)]

lemma fallback_not_excluded : ∀ s ∈ fallbackInterfaces, isExcludedName s = false := by
  decide

lemma ipLinkInterface_not_excluded {line : List Char} {s : String}
    (h : ipLinkInterface line = some s) : isExcludedName s = false := by
  unfold ipLinkInterface at h
  split at h
  · split at h
    · split at h
      · rename_i hcond
        have hs := Option.some.inj h
        simp only [Bool.and_eq_true, Bool.not_eq_eq_eq_not, Bool.not_true] at hcond
        simp only [List.get_eq_getElem] at hcond
        simp [isExcludedName, ← hs, hcond.1, hcond.2]
      · exact absurd h (by simp)
    · exact absurd h (by simp)
  · exact absurd h (by simp)

lemma ifconfigInterface_not_excluded {line : List Char} {s : String}
    (h : ifconfigInterface line = some s) : isExcludedName s = false := by
  unfold ifconfigInterface at h
  split at h
  · split at h
    · rename_i hcond
      have hs := Option.some.inj h
      have := not_excluded_of_en_or_eth ((splitOnChar ':' line).headD []) hcond
      simpa [isExcludedName, ← hs] using this
    · exact absurd h (by simp)
  · exact absurd h (by simp)

/-- C8: every interface name in the candidate list returned by
`get_network_interfaces` fails the loopback / virtual name-pattern
heuristic — no name starting with `lo` or `veth` ever appears, on any of
the three paths (`ip link` parsing, `ifconfig` parsing, fallback list). -/
theorem candidates_exclude_loopback_and_virtual (p : Platform) :
    ∀ s ∈ get_network_interfaces p, isExcludedName s = false := by
  obtain ⟨ip, ifc⟩ := p
  intro s hs
  cases ip with
  | none => exact fallback_not_excluded s (by simpa [get_network_interfaces] using hs)
  | some pr =>
    obtain ⟨rc, out⟩ := pr
    by_cases h0 : rc = 0
    · simp only [get_network_interfaces, h0, if_true, List.mem_filterMap] at hs
      obtain ⟨line, _, hline⟩ := hs
      exact ipLinkInterface_not_excluded hline
    · cases ifc with
      | none =>
        exact fallback_not_excluded s (by simpa [get_network_interfaces, h0] using hs)
      | some out2 =>
        simp only [get_network_interfaces, h0, if_false, List.mem_filterMap] at hs
        obtain ⟨line, _, hline⟩ := hs
        exact ifconfigInterface_not_excluded hline

/-- Platform for the C8 witness: an `ip link show` output with one
eligible interface line. -/
def platformLinuxSample : Platform := ⟨some (0, "2: eth0: mtu state UP"), none⟩

theorem candidates_exclude_loopback_and_virtual_witness :
    isExcludedName "eth0" = false :=
  candidates_exclude_loopback_and_virtual platformLinuxSample "eth0" (by decide)
